import Mathlib

/-!
Verification of the clinical-trial-site-selection repository's tool servers.

This development shallowly embeds the relevant TypeScript/JavaScript code:
  * `src/mcp-servers/patient-demographics/src/data.ts` (static datasets,
    `searchPatientPools`, `getDemographicsByRegion`, `normalizeRegion`),
  * `src/mcp-servers/patient-demographics/src/server.ts` (the `tools/call`
    request handler),
  * the audit-log module (`logRequestDetails` / `getAuthLogs`),
  * `src/interactive-ui/src/utils/SessionOAuthProvider.js` (the token store),
  * the site-performance server's `getEnrollmentHistory` (source embedded in
    `src/mcp-servers/site-performance/QUICKSTART.md`; its static dataset is not
    part of the sources, so that function is parameterised by the dataset).

JavaScript machine strings are modelled as Lean `String`s; JavaScript numbers
are modelled as `ℚ` (every value occurring here is produced from JSON decimal
literals and compared or subtracted, operations on which double-precision
arithmetic performs exactly or order-faithfully).  Fallible code is modelled
in `Except JsError`.
-/

namespace CTSite

/-! ### JavaScript string primitives -/

/-- Model of `String.prototype.toLowerCase` restricted to the mappings relevant here:
the ASCII range (the Unicode default lowercase mapping is the identity on the
other characters appearing in this development, e.g. on U+017F). -/
def jsCharToLower (c : Char) : Char :=
  if 'A' ≤ c ∧ c ≤ 'Z' then Char.ofNat (c.toNat + 32) else c

/-- Model of `String.prototype.toUpperCase` character mapping, modelled on the ASCII
range together with U+017F (LATIN SMALL LETTER LONG S, 'ſ'), whose Unicode
default uppercase mapping — the one ECMAScript `toUpperCase` applies — is the
ASCII letter 'S'.  Other non-ASCII mappings are not modelled. -/
def jsCharToUpper (c : Char) : Char :=
  if 'a' ≤ c ∧ c ≤ 'z' then Char.ofNat (c.toNat - 32)
  else if c = 'ſ' then 'S'
  else c

/-- Model of `s.toLowerCase()` -/
def jsToLower (s : String) : String := ⟨s.data.map jsCharToLower⟩

/-- Model of `s.toUpperCase()` -/
def jsToUpper (s : String) : String := ⟨s.data.map jsCharToUpper⟩

/-- The characters matched by the regexp class `\s` (ASCII part). -/
def isJsWhitespace (c : Char) : Bool :=
  c = ' ' || c = '\t' || c = '\n' || c = '\r' || c = '\x0b' || c = '\x0c'

/-- State-machine core of `s.replace(/\s+/g, "-")`: each maximal run of
whitespace characters becomes a single hyphen.  The boolean records whether
the previous character was part of a whitespace run. -/
def collapseWsAux : Bool → List Char → List Char
  | _, [] => []
  | prevWs, c :: rest =>
    if isJsWhitespace c then
      if prevWs then collapseWsAux true rest
      else '-' :: collapseWsAux true rest
    else c :: collapseWsAux false rest

/-- Model of `s.replace(/\s+/g, "-")` -/
def jsReplaceWsWithHyphen (s : String) : String := ⟨collapseWsAux false s.data⟩

/-- Model of `s.includes(sub)`: `sub` occurs contiguously inside `s`. -/
def jsIncludes (s sub : String) : Bool := decide (sub.data <:+: s.data)

/-- Model of `s.startsWith(p)` -/
def jsStartsWith (s p : String) : Bool := decide (p.data <+: s.data)

/-- Model of `s.substring(n)` -/
def jsSubstringFrom (s : String) (n : Nat) : String := ⟨s.data.drop n⟩

/-! ### Thrown JavaScript errors -/

/-- The `Error` values thrown inside the tool functions and the request
handler.  All of them are `instanceof Error`, so the handler's `catch` block
turns each into an `isError` response carrying `` `Error: ${error.message}` ``.
The precise text zod produces for a failed schema parse is not modelled (no
claim depends on it); the other two carry their exact runtime message. -/
inductive JsError where
  /-- Model of `new Error(msg)` thrown explicitly by the code. -/
  | error (msg : String)
  /-- A `TypeError` raised by the JavaScript runtime. -/
  | typeError (msg : String)
  /-- A `ZodError` raised by a failed `schema.parse`. -/
  | zodError (msg : String)
deriving DecidableEq

deriving instance DecidableEq for Except

/-- Model of `error.message` -/
def JsError.message : JsError → String
  | .error m => m
  | .typeError m => m
  | .zodError m => m

/-! ### `normalizeRegion` (data.ts lines 515-533) -/

/-- The fixed `regionMap` object literal of `normalizeRegion`. -/
def regionMap : List (String × String) :=
  [ ("northeast", "US-NE"), ("us-northeast", "US-NE"),
    ("california", "US-CA"), ("us-california", "US-CA"),
    ("texas", "US-TX"), ("us-texas", "US-TX"),
    ("florida", "US-FL"), ("us-florida", "US-FL"),
    ("illinois", "US-IL"), ("us-illinois", "US-IL"),
    ("washington", "US-WA"), ("us-washington", "US-WA") ]

/-- The string-keyed properties a plain object literal inherits from
`Object.prototype` (Node/V8, annex-B legacy accessors included).  A bracket
lookup `obj[key]` on the literal finds these when `key` is not an own
property, and every one of them reads as a truthy non-string value (a
built-in function, or — for `__proto__` — the `Object.prototype` object). -/
def objectProtoKeys : List String :=
  ["constructor", "hasOwnProperty", "isPrototypeOf", "propertyIsEnumerable",
   "toLocaleString", "toString", "valueOf", "__proto__", "__defineGetter__",
   "__defineSetter__", "__lookupGetter__", "__lookupSetter__"]

/-- The value of `regionMap[normalized] || region.toUpperCase()`: either a
string (an own region code, or the upper-cased fall-through), or a truthy
non-string member inherited from `Object.prototype` (named by its key). -/
inductive JsValue where
  | str (s : String)
  | protoMember (name : String)
deriving DecidableEq

/-- `ToString` of an inherited `Object.prototype` member, as Node/V8 prints
it (`String.prototype.startsWith` coerces its argument this way).  Only the
fact that none of these strings is a prefix of any region id is ever
relevant; no claim depends on the exact text. -/
def jsMemberToString (name : String) : String :=
  if name = "constructor" then "function Object() \x7b [native code] \x7d"
  else if name = "__proto__" then "[object Object]"
  else "function " ++ name ++ "() \x7b [native code] \x7d"

/-- `ToString` coercion of a `JsValue`. -/
def jsValueToString : JsValue → String
  | .str s => s
  | .protoMember name => jsMemberToString name

/-- Model of `normalizeRegion(region)`:
`const normalized = region.toLowerCase().replace(/\s+/g, "-");
 return regionMap[normalized] || region.toUpperCase();`
The bracket lookup walks the prototype chain: an own key yields its region
code (a non-empty string, truthy); otherwise a key of `Object.prototype`
yields the inherited member (truthy, so `||` returns it — a non-string
escapes!); only a complete miss is `undefined`, falsy, and falls through to
the upper-cased input. -/
def normalizeRegion (region : String) : JsValue :=
  let normalized := jsReplaceWsWithHyphen (jsToLower region)
  match regionMap.lookup normalized with
  | some code => .str code
  | none =>
    if normalized ∈ objectProtoKeys then .protoMember normalized
    else .str (jsToUpper region)

/-- Applying `normalizeRegion` to the result of a previous application (the
second call of the idempotence question): when the previous result is one of
the inherited non-string members, `region.toLowerCase()` throws
`TypeError: region.toLowerCase is not a function`. -/
def normalizeRegionValue : JsValue → Except JsError JsValue
  | .str s => .ok (normalizeRegion s)
  | .protoMember _ =>
    .error (.typeError "region.toLowerCase is not a function")

/-! ### Data model of the patient-demographics server (types.ts / data.ts) -/

/-- Model of `age_distribution` object (keys "18-35", "36-50", "51-65", "66+"). -/
structure AgeDistribution where
  a18to35 : ℚ
  a36to50 : ℚ
  a51to65 : ℚ
  a66plus : ℚ
deriving DecidableEq

structure GenderRatio where
  male : ℚ
  female : ℚ
deriving DecidableEq

structure EthnicityDist where
  caucasian : ℚ
  african_american : ℚ
  hispanic : ℚ
  asian : ℚ
  other : ℚ
deriving DecidableEq

structure PoolDemographics where
  gender_ratio : GenderRatio
  ethnicity : EthnicityDist
deriving DecidableEq

/-- Model of `PatientPool` (types.ts). -/
structure PatientPool where
  region_id : String
  region_name : String
  disease : String
  estimated_population : ℚ
  age_distribution : AgeDistribution
  demographics : PoolDemographics
  disease_prevalence_rate : ℚ
deriving DecidableEq

structure HealthcareAccess where
  insured_rate : ℚ
  primary_care_access : ℚ
  specialist_access : ℚ
deriving DecidableEq

structure EnrollmentVelocity where
  avg_days_to_consent : ℚ
  screen_failure_rate : ℚ
  retention_rate : ℚ
deriving DecidableEq

structure EducationLevel where
  high_school : ℚ
  bachelors : ℚ
  graduate : ℚ
deriving DecidableEq

structure Socioeconomic where
  median_income : ℚ
  education_level : EducationLevel
deriving DecidableEq

/-- Model of `RegionDemographics` (types.ts). -/
structure RegionDemographics where
  region_id : String
  region_name : String
  total_population : ℚ
  healthcare_access : HealthcareAccess
  enrollment_velocity : EnrollmentVelocity
  socioeconomic : Socioeconomic
deriving DecidableEq

/-- The static `patientPools` array (data.ts lines 3-234), transcribed field
for field. -/
def patientPools : List PatientPool :=
  [ { region_id := "US-NE-001", region_name := "Boston Metropolitan Area",
      disease := "Type 2 Diabetes", estimated_population := 45000,
      age_distribution := ⟨5000, 12000, 18000, 10000⟩,
      demographics := ⟨⟨0.52, 0.48⟩, ⟨0.65, 0.15, 0.12, 0.08, 0.0⟩⟩,
      disease_prevalence_rate := 0.087 },
    { region_id := "US-NE-001", region_name := "Boston Metropolitan Area",
      disease := "Hypertension", estimated_population := 78000,
      age_distribution := ⟨8000, 18000, 32000, 20000⟩,
      demographics := ⟨⟨0.49, 0.51⟩, ⟨0.63, 0.18, 0.11, 0.08, 0.0⟩⟩,
      disease_prevalence_rate := 0.15 },
    { region_id := "US-NE-002", region_name := "New York Metropolitan Area",
      disease := "Type 2 Diabetes", estimated_population := 125000,
      age_distribution := ⟨15000, 35000, 50000, 25000⟩,
      demographics := ⟨⟨0.51, 0.49⟩, ⟨0.42, 0.25, 0.23, 0.1, 0.0⟩⟩,
      disease_prevalence_rate := 0.092 },
    { region_id := "US-NE-003", region_name := "Philadelphia Metropolitan Area",
      disease := "Type 2 Diabetes", estimated_population := 52000,
      age_distribution := ⟨6000, 14000, 21000, 11000⟩,
      demographics := ⟨⟨0.5, 0.5⟩, ⟨0.55, 0.28, 0.1, 0.07, 0.0⟩⟩,
      disease_prevalence_rate := 0.089 },
    { region_id := "US-CA-001", region_name := "San Francisco Bay Area",
      disease := "Lung Cancer", estimated_population := 8500,
      age_distribution := ⟨200, 1500, 4000, 2800⟩,
      demographics := ⟨⟨0.54, 0.46⟩, ⟨0.48, 0.08, 0.22, 0.22, 0.0⟩⟩,
      disease_prevalence_rate := 0.0062 },
    { region_id := "US-CA-002", region_name := "Los Angeles Metropolitan Area",
      disease := "Lung Cancer", estimated_population := 15000,
      age_distribution := ⟨400, 2500, 7000, 5100⟩,
      demographics := ⟨⟨0.52, 0.48⟩, ⟨0.35, 0.1, 0.42, 0.13, 0.0⟩⟩,
      disease_prevalence_rate := 0.0068 },
    { region_id := "US-TX-001", region_name := "Houston Metropolitan Area",
      disease := "Type 2 Diabetes", estimated_population := 95000,
      age_distribution := ⟨12000, 28000, 38000, 17000⟩,
      demographics := ⟨⟨0.51, 0.49⟩, ⟨0.38, 0.22, 0.35, 0.05, 0.0⟩⟩,
      disease_prevalence_rate := 0.11 },
    { region_id := "US-FL-001", region_name := "Miami Metropolitan Area",
      disease := "Type 2 Diabetes", estimated_population := 72000,
      age_distribution := ⟨8000, 18000, 28000, 18000⟩,
      demographics := ⟨⟨0.48, 0.52⟩, ⟨0.25, 0.2, 0.52, 0.03, 0.0⟩⟩,
      disease_prevalence_rate := 0.095 },
    { region_id := "US-IL-001", region_name := "Chicago Metropolitan Area",
      disease := "Hypertension", estimated_population := 145000,
      age_distribution := ⟨15000, 35000, 60000, 35000⟩,
      demographics := ⟨⟨0.49, 0.51⟩, ⟨0.52, 0.28, 0.15, 0.05, 0.0⟩⟩,
      disease_prevalence_rate := 0.16 },
    { region_id := "US-WA-001", region_name := "Seattle Metropolitan Area",
      disease := "Metabolic Disorder", estimated_population := 3200,
      age_distribution := ⟨800, 1100, 900, 400⟩,
      demographics := ⟨⟨0.5, 0.5⟩, ⟨0.68, 0.08, 0.09, 0.15, 0.0⟩⟩,
      disease_prevalence_rate := 0.0021 } ]

/-- The static `regionDemographics` array (data.ts lines 236-444),
transcribed field for field. -/
def regionDemographics : List RegionDemographics :=
  [ { region_id := "US-NE-001", region_name := "Boston Metropolitan Area",
      total_population := 4800000,
      healthcare_access := ⟨0.95, 0.89, 0.82⟩,
      enrollment_velocity := ⟨14, 0.23, 0.87⟩,
      socioeconomic := ⟨87500, ⟨0.91, 0.52, 0.28⟩⟩ },
    { region_id := "US-NE-002", region_name := "New York Metropolitan Area",
      total_population := 19500000,
      healthcare_access := ⟨0.91, 0.85, 0.88⟩,
      enrollment_velocity := ⟨16, 0.25, 0.84⟩,
      socioeconomic := ⟨78000, ⟨0.87, 0.42, 0.19⟩⟩ },
    { region_id := "US-NE-003", region_name := "Philadelphia Metropolitan Area",
      total_population := 6200000,
      healthcare_access := ⟨0.93, 0.87, 0.79⟩,
      enrollment_velocity := ⟨15, 0.24, 0.85⟩,
      socioeconomic := ⟨72000, ⟨0.89, 0.38, 0.17⟩⟩ },
    { region_id := "US-CA-001", region_name := "San Francisco Bay Area",
      total_population := 7700000,
      healthcare_access := ⟨0.94, 0.88, 0.86⟩,
      enrollment_velocity := ⟨13, 0.21, 0.89⟩,
      socioeconomic := ⟨112000, ⟨0.92, 0.58, 0.31⟩⟩ },
    { region_id := "US-CA-002", region_name := "Los Angeles Metropolitan Area",
      total_population := 13200000,
      healthcare_access := ⟨0.89, 0.82, 0.81⟩,
      enrollment_velocity := ⟨17, 0.26, 0.82⟩,
      socioeconomic := ⟨71000, ⟨0.83, 0.36, 0.15⟩⟩ },
    { region_id := "US-TX-001", region_name := "Houston Metropolitan Area",
      total_population := 7100000,
      healthcare_access := ⟨0.86, 0.79, 0.76⟩,
      enrollment_velocity := ⟨18, 0.27, 0.81⟩,
      socioeconomic := ⟨68000, ⟨0.85, 0.34, 0.13⟩⟩ },
    { region_id := "US-FL-001", region_name := "Miami Metropolitan Area",
      total_population := 6200000,
      healthcare_access := ⟨0.84, 0.77, 0.74⟩,
      enrollment_velocity := ⟨19, 0.28, 0.79⟩,
      socioeconomic := ⟨59000, ⟨0.81, 0.31, 0.12⟩⟩ },
    { region_id := "US-IL-001", region_name := "Chicago Metropolitan Area",
      total_population := 9500000,
      healthcare_access := ⟨0.92, 0.86, 0.83⟩,
      enrollment_velocity := ⟨15, 0.24, 0.85⟩,
      socioeconomic := ⟨75000, ⟨0.88, 0.41, 0.18⟩⟩ },
    { region_id := "US-WA-001", region_name := "Seattle Metropolitan Area",
      total_population := 4000000,
      healthcare_access := ⟨0.94, 0.9, 0.85⟩,
      enrollment_velocity := ⟨13, 0.2, 0.9⟩,
      socioeconomic := ⟨95000, ⟨0.93, 0.55, 0.25⟩⟩ } ]

/-! ### Throwing array filter -/

/-- Model of `Array.prototype.filter` with a predicate that can throw: the callback is
evaluated left to right on every element and the first throw aborts the
whole call (this is how `searchPatientPools`'s arrow callback behaves when
`disease` is `undefined`). -/
def filterE {α ε : Type} (p : α → Except ε Bool) : List α → Except ε (List α)
  | [] => .ok []
  | a :: as => do
    let b ← p a
    let rest ← filterE p as
    pure (if b then a :: rest else rest)

/-- Model of `x.toLowerCase()` on a possibly-`undefined` value: JavaScript raises
`TypeError: Cannot read properties of undefined (reading 'toLowerCase')`
when `x` is `undefined`. -/
def jsToLowerOrThrow : Option String → Except JsError String
  | none =>
    .error (.typeError "Cannot read properties of undefined (reading 'toLowerCase')")
  | some s => .ok (jsToLower s)

/-! ### `search_patient_pools` (tools.ts: `searchPatientPools`) -/

/-- The zod-parsed arguments of `search_patient_pools`
(`SearchPatientPoolsSchema`): `disease` is optional, `region` required,
`min_population` optional with default `0` (so it is always present after
parsing). -/
structure SearchPatientPoolsParams where
  disease : Option String
  region : String
  min_population : ℚ
deriving DecidableEq

/-- Return value of `searchPatientPools`:
`{ pools, total_count: pools.length, query: params }`. -/
structure SearchPatientPoolsResult where
  pools : List PatientPool
  total_count : ℚ
  query : SearchPatientPoolsParams
deriving DecidableEq

/-- Model of `searchPatientPools(params)` (data.ts lines 467-487).  The filter callback
evaluates `disease.toLowerCase()` unconditionally, so a missing `disease`
raises a `TypeError` on the first element. -/
def searchPatientPools (params : SearchPatientPoolsParams) :
    Except JsError SearchPatientPoolsResult := do
  let regionNorm := normalizeRegion params.region
  let matchingPools ← filterE (fun pool => do
    let diseaseLower ← jsToLowerOrThrow params.disease
    let diseaseMatch := jsIncludes (jsToLower pool.disease) diseaseLower
    let regionMatch := jsStartsWith pool.region_id (jsValueToString regionNorm) ||
      jsIncludes (jsToLower pool.region_name) (jsToLower params.region)
    let populationMatch := decide (params.min_population ≤ pool.estimated_population)
    pure (diseaseMatch && regionMatch && populationMatch)) patientPools
  pure { pools := matchingPools, total_count := (matchingPools.length : ℚ),
         query := params }

/-! ### `get_demographics_by_region` (tools.ts: `getDemographicsByRegion`) -/

/-- The zod-parsed arguments of `get_demographics_by_region`
(`GetDemographicsByRegionSchema`). -/
structure GetDemographicsByRegionParams where
  region_id : String
  disease_filter : Option String
deriving DecidableEq

/-- Return value of `getDemographicsByRegion`:
`{ ...demographics, disease_specific_data }`. -/
structure GetDemographicsByRegionResult where
  demographics : RegionDemographics
  disease_specific_data : Option (List PatientPool)
deriving DecidableEq

/-- Model of `getDemographicsByRegion(params)` (data.ts lines 489-512).
`if (disease_filter)` is JavaScript truthiness: both `undefined` and the
empty string leave `disease_specific_data` as `null`. -/
def getDemographicsByRegion (params : GetDemographicsByRegionParams) :
    Except JsError GetDemographicsByRegionResult :=
  match regionDemographics.find? (fun r => r.region_id == params.region_id) with
  | none => .error (.error ("Region not found: " ++ params.region_id))
  | some demographics =>
    let diseaseData : Option (List PatientPool) :=
      match params.disease_filter with
      | some filt =>
        if filt.isEmpty then none
        else some (patientPools.filter (fun pool =>
          pool.region_id == params.region_id &&
          jsIncludes (jsToLower pool.disease) (jsToLower filt)))
      | none => none
    .ok { demographics, disease_specific_data := diseaseData }

/-! ### JSON values, `JSON.stringify` and `JSON.parse` models -/

/-- JSON values.  Numbers are rationals (double-precision values reachable in
this code are exact decimal fractions); object fields are an ordered list, as
`JSON.stringify` serialises keys in property insertion order. -/
inductive Json where
  | null
  | bool (b : Bool)
  | num (q : ℚ)
  | str (s : String)
  | arr (elems : List Json)
  | obj (fields : List (String × Json))

/-- Digits of a natural number (the serialisation of integral JSON numbers). -/
def natToString (n : Nat) : String := Nat.repr n

/-- Model of `JSON.stringify` on a number: integers print without a point, decimal
fractions with one (e.g. `0.52`).  Rationals whose denominator is not a power
of ten never arise from the embedded code; they get a fallback rendering. -/
def ratNumToString (q : ℚ) : String :=
  if q.den = 1 then
    (if q.num < 0 then "-" else "") ++ natToString q.num.natAbs
  else
    match (List.range 33).find? (fun k => (q * (10:ℚ) ^ k).den = 1) with
    | some k =>
      let m := (q * (10:ℚ) ^ k).num
      let sign := if m < 0 then "-" else ""
      let digits := natToString m.natAbs
      let padded :=
        String.mk (List.replicate (k + 1 - digits.length) '0') ++ digits
      let intPart := String.mk (padded.data.take (padded.data.length - k))
      let fracPart := String.mk (padded.data.drop (padded.data.length - k))
      sign ++ intPart ++ "." ++ fracPart
    | none => natToString q.num.natAbs ++ "/" ++ natToString q.den

/-- Model of `JSON.stringify` escaping of one string character (the escapes that can
occur for the strings in this development). -/
def escapeJsonChar (c : Char) : String :=
  if c = '"' then "\\\""
  else if c = '\\' then "\\\\"
  else if c = '\n' then "\\n"
  else if c = '\r' then "\\r"
  else if c = '\t' then "\\t"
  else String.singleton c

/-- Model of `JSON.stringify` escaping of a string body. -/
def escapeJsonString (s : String) : String :=
  String.join (s.data.map escapeJsonChar)

mutual

/-- A model of `JSON.stringify` (compact form; the `null, 2` pretty-printing
the server passes only inserts whitespace, which `JSON.parse` discards, so it
does not affect the decoded value). -/
def Json.render : Json → String
  | .null => "null"
  | .bool true => "true"
  | .bool false => "false"
  | .num q => ratNumToString q
  | .str s => "\"" ++ escapeJsonString s ++ "\""
  | .arr elems => "[" ++ renderElems elems ++ "]"
  | .obj fields => "\x7b" ++ renderFields fields ++ "\x7d"

def renderElems : List Json → String
  | [] => ""
  | [j] => Json.render j
  | j :: rest => Json.render j ++ "," ++ renderElems rest

def renderFields : List (String × Json) → String
  | [] => ""
  | [(k, v)] => "\"" ++ escapeJsonString k ++ "\":" ++ Json.render v
  | (k, v) :: rest =>
    "\"" ++ escapeJsonString k ++ "\":" ++ Json.render v ++ "," ++ renderFields rest

end

/-- Whitespace skipped by `JSON.parse`. -/
def isJsonWs (c : Char) : Bool :=
  c = ' ' || c = '\t' || c = '\n' || c = '\r'

/-- Body of a JSON string up to the closing quote, un-escaping as it goes;
returns the content and the remaining input. -/
def parseStrAux : List Char → Option (List Char × List Char)
  | [] => none
  | '"' :: rest => some ([], rest)
  | '\\' :: e :: rest => do
    let c ← match e with
      | '"' => some '"'
      | '\\' => some '\\'
      | 'n' => some '\n'
      | 'r' => some '\r'
      | 't' => some '\t'
      | _ => none
    let (cs, rest') ← parseStrAux rest
    pure (c :: cs, rest')
  | c :: rest => do
    let (cs, rest') ← parseStrAux rest
    pure (c :: cs, rest')

/-- Digit run to a natural number. -/
def digitsToNat (ds : List Char) : Nat :=
  ds.foldl (fun n c => 10 * n + (c.toNat - 48)) 0

/-- A JSON number literal (optional sign, digits, optional fraction). -/
def parseNumber (cs : List Char) : Option (ℚ × List Char) :=
  let signSplit : Bool × List Char :=
    match cs with
    | '-' :: rest => (true, rest)
    | _ => (false, cs)
  let neg := signSplit.1
  let (intDigits, cs2) := signSplit.2.span (fun c => c.isDigit)
  if intDigits.isEmpty then none
  else
    let intVal : ℚ := (digitsToNat intDigits : ℚ)
    match cs2 with
    | '.' :: cs3 =>
      let (fracDigits, cs4) := cs3.span (fun c => c.isDigit)
      if fracDigits.isEmpty then none
      else
        let v := intVal + (digitsToNat fracDigits : ℚ) / (10:ℚ) ^ fracDigits.length
        some (if neg then -v else v, cs4)
    | _ => some (if neg then -intVal else intVal, cs2)

mutual

/-- Recursive-descent JSON value reader (fuel bounds the nesting depth). -/
def parseJsonAux : Nat → List Char → Option (Json × List Char)
  | 0, _ => none
  | Nat.succ fuel, cs =>
    match cs.dropWhile isJsonWs with
    | 'n' :: 'u' :: 'l' :: 'l' :: rest => some (.null, rest)
    | 't' :: 'r' :: 'u' :: 'e' :: rest => some (.bool true, rest)
    | 'f' :: 'a' :: 'l' :: 's' :: 'e' :: rest => some (.bool false, rest)
    | '"' :: rest =>
      (parseStrAux rest).map (fun p => (.str (String.mk p.1), p.2))
    | '[' :: rest =>
      (match rest.dropWhile isJsonWs with
       | ']' :: rest' => some (.arr [], rest')
       | _ => (parseElemsAux fuel rest).map (fun p => (.arr p.1, p.2)))
    | '\x7b' :: rest =>
      (match rest.dropWhile isJsonWs with
       | '\x7d' :: rest' => some (.obj [], rest')
       | _ => (parseFieldsAux fuel rest).map (fun p => (.obj p.1, p.2)))
    | other => (parseNumber other).map (fun p => (.num p.1, p.2))

/-- Comma-separated array elements up to `]`. -/
def parseElemsAux : Nat → List Char → Option (List Json × List Char)
  | 0, _ => none
  | Nat.succ fuel, cs => do
    let (j, rest) ← parseJsonAux fuel cs
    match rest.dropWhile isJsonWs with
    | ',' :: rest' =>
      (parseElemsAux fuel rest').map (fun p => (j :: p.1, p.2))
    | ']' :: rest' => some ([j], rest')
    | _ => none

/-- Comma-separated object members up to the closing brace. -/
def parseFieldsAux : Nat → List Char → Option (List (String × Json) × List Char)
  | 0, _ => none
  | Nat.succ fuel, cs =>
    match cs.dropWhile isJsonWs with
    | '"' :: rest => do
      let (key, rest1) ← parseStrAux rest
      match rest1.dropWhile isJsonWs with
      | ':' :: rest2 => do
        let (v, rest3) ← parseJsonAux fuel rest2
        match rest3.dropWhile isJsonWs with
        | ',' :: rest4 =>
          (parseFieldsAux fuel rest4).map
            (fun p => ((String.mk key, v) :: p.1, p.2))
        | '\x7d' :: rest4 => some ([(String.mk key, v)], rest4)
        | _ => none
      | _ => none
    | _ => none

end

/-- A model of `JSON.parse`: reads one value and requires only whitespace to
follow. -/
def jsonParse (s : String) : Option Json := do
  let (j, rest) ← parseJsonAux (s.data.length + 1) s.data
  if (rest.dropWhile isJsonWs).isEmpty then some j else none

/-! ### JSON encodings of the tool results

`JSON.stringify` walks each object's own enumerable properties in insertion
order, so every encoder below lists the keys in the order the corresponding
TypeScript object literal (or zod schema shape) declares them. -/

def AgeDistribution.toJson (a : AgeDistribution) : Json :=
  .obj [("18-35", .num a.a18to35), ("36-50", .num a.a36to50),
        ("51-65", .num a.a51to65), ("66+", .num a.a66plus)]

def GenderRatio.toJson (g : GenderRatio) : Json :=
  .obj [("male", .num g.male), ("female", .num g.female)]

def EthnicityDist.toJson (e : EthnicityDist) : Json :=
  .obj [("caucasian", .num e.caucasian),
        ("african_american", .num e.african_american),
        ("hispanic", .num e.hispanic), ("asian", .num e.asian),
        ("other", .num e.other)]

def PoolDemographics.toJson (d : PoolDemographics) : Json :=
  .obj [("gender_ratio", d.gender_ratio.toJson),
        ("ethnicity", d.ethnicity.toJson)]

def PatientPool.toJson (p : PatientPool) : Json :=
  .obj [("region_id", .str p.region_id), ("region_name", .str p.region_name),
        ("disease", .str p.disease),
        ("estimated_population", .num p.estimated_population),
        ("age_distribution", p.age_distribution.toJson),
        ("demographics", p.demographics.toJson),
        ("disease_prevalence_rate", .num p.disease_prevalence_rate)]

/-- The `query` echo: zod's parse output has the schema's key order; an absent
optional `disease` never reaches the serialised output (`JSON.stringify`
skips `undefined` properties). -/
def SearchPatientPoolsParams.toJson (p : SearchPatientPoolsParams) : Json :=
  .obj ((match p.disease with
         | some d => [("disease", Json.str d)]
         | none => []) ++
        [("region", .str p.region), ("min_population", .num p.min_population)])

def SearchPatientPoolsResult.toJson (r : SearchPatientPoolsResult) : Json :=
  .obj [("pools", .arr (r.pools.map PatientPool.toJson)),
        ("total_count", .num r.total_count),
        ("query", r.query.toJson)]

def HealthcareAccess.toJson (h : HealthcareAccess) : Json :=
  .obj [("insured_rate", .num h.insured_rate),
        ("primary_care_access", .num h.primary_care_access),
        ("specialist_access", .num h.specialist_access)]

def EnrollmentVelocity.toJson (e : EnrollmentVelocity) : Json :=
  .obj [("avg_days_to_consent", .num e.avg_days_to_consent),
        ("screen_failure_rate", .num e.screen_failure_rate),
        ("retention_rate", .num e.retention_rate)]

def EducationLevel.toJson (e : EducationLevel) : Json :=
  .obj [("high_school", .num e.high_school), ("bachelors", .num e.bachelors),
        ("graduate", .num e.graduate)]

def Socioeconomic.toJson (s : Socioeconomic) : Json :=
  .obj [("median_income", .num s.median_income),
        ("education_level", s.education_level.toJson)]

/-- The fields contributed by `...demographics` in
`return { ...demographics, disease_specific_data }`. -/
def RegionDemographics.toJsonFields (r : RegionDemographics) :
    List (String × Json) :=
  [("region_id", .str r.region_id), ("region_name", .str r.region_name),
   ("total_population", .num r.total_population),
   ("healthcare_access", r.healthcare_access.toJson),
   ("enrollment_velocity", r.enrollment_velocity.toJson),
   ("socioeconomic", r.socioeconomic.toJson)]

def GetDemographicsByRegionResult.toJson (r : GetDemographicsByRegionResult) :
    Json :=
  .obj (r.demographics.toJsonFields ++
        [("disease_specific_data",
          match r.disease_specific_data with
          | none => Json.null
          | some pools => .arr (pools.map PatientPool.toJson))])

/-! ### zod schema parsing (`SearchPatientPoolsSchema.parse`,
`GetDemographicsByRegionSchema.parse`) -/

/-- Model of `z.string()` on a required key. -/
def zodRequiredString (fields : List (String × Json)) (key : String) :
    Except JsError String :=
  match fields.lookup key with
  | some (.str s) => .ok s
  | _ => .error (.zodError ("invalid value for " ++ key))

/-- Model of `z.string().optional()`: absent keys parse to `undefined`, present values
must be strings. -/
def zodOptionalString (fields : List (String × Json)) (key : String) :
    Except JsError (Option String) :=
  match fields.lookup key with
  | none => .ok none
  | some (.str s) => .ok (some s)
  | some _ => .error (.zodError ("invalid value for " ++ key))

/-- Model of `z.number().optional().default(d)`. -/
def zodNumberWithDefault (fields : List (String × Json)) (key : String)
    (d : ℚ) : Except JsError ℚ :=
  match fields.lookup key with
  | none => .ok d
  | some (.num q) => .ok q
  | some _ => .error (.zodError ("invalid value for " ++ key))

/-- Model of `SearchPatientPoolsSchema.parse(args)`.  A non-object (including the
`undefined` of a request with no `arguments`) throws a `ZodError`; unknown
keys are stripped. -/
def searchPatientPoolsSchemaParse (args : Option Json) :
    Except JsError SearchPatientPoolsParams :=
  match args with
  | some (.obj fields) => do
    let disease ← zodOptionalString fields "disease"
    let region ← zodRequiredString fields "region"
    let minPopulation ← zodNumberWithDefault fields "min_population" 0
    pure ⟨disease, region, minPopulation⟩
  | _ => .error (.zodError "expected object")

/-- Model of `GetDemographicsByRegionSchema.parse(args)`. -/
def getDemographicsByRegionSchemaParse (args : Option Json) :
    Except JsError GetDemographicsByRegionParams :=
  match args with
  | some (.obj fields) => do
    let regionId ← zodRequiredString fields "region_id"
    let diseaseFilter ← zodOptionalString fields "disease_filter"
    pure ⟨regionId, diseaseFilter⟩
  | _ => .error (.zodError "expected object")

/-! ### The `tools/call` request handler (server.ts lines 49-97) -/

/-- One element of the response's `content` array. -/
structure ContentItem where
  type : String
  text : String
deriving DecidableEq

/-- The application-level result of a `tools/call` request.  A successful
response carries no `isError` key, which reads as the falsy `undefined`;
it is modelled as `false`. -/
structure CallToolResult where
  content : List ContentItem
  isError : Bool
deriving DecidableEq

/-- The names declared by the patient-demographics server's `tools/list`
handler. -/
def declaredToolNames : List String :=
  ["search_patient_pools", "get_demographics_by_region"]

/-- The `try` block of the `CallToolRequestSchema` handler: dispatch on the
tool name, `schema.parse` the arguments, run the tool, `JSON.stringify` the
result.  Every throw is an `Error`. -/
def callToolTry (name : String) (args : Option Json) : Except JsError Json :=
  if name = "search_patient_pools" then do
    let params ← searchPatientPoolsSchemaParse args
    let result ← searchPatientPools params
    pure result.toJson
  else if name = "get_demographics_by_region" then do
    let params ← getDemographicsByRegionSchemaParse args
    let result ← getDemographicsByRegion params
    pure result.toJson
  else .error (.error ("Unknown tool: " ++ name))

/-- The whole handler: the `catch` block turns every thrown `Error` into a
normal response with `isError: true` and text `` `Error: ${error.message}` ``
(nothing thrown here fails the `instanceof Error` test, so the handler always
responds). -/
def callToolHandler (name : String) (args : Option Json) : CallToolResult :=
  match callToolTry name args with
  | .ok j => { content := [⟨"text", j.render⟩], isError := false }
  | .error e => { content := [⟨"text", "Error: " ++ e.message⟩], isError := true }

/-- Directly invoking a declared tool function on schema-valid arguments,
bypassing the server: the reference value for the client/server parity claim.
`some` exactly when the named tool is declared, its schema accepts the
arguments and the tool function returns normally. -/
def directToolCall (name : String) (args : Option Json) : Option Json :=
  if name = "search_patient_pools" then
    match searchPatientPoolsSchemaParse args with
    | .ok params =>
      match searchPatientPools params with
      | .ok r => some r.toJson
      | .error _ => none
    | .error _ => none
  else if name = "get_demographics_by_region" then
    match getDemographicsByRegionSchemaParse args with
    | .ok params =>
      match getDemographicsByRegion params with
      | .ok r => some r.toJson
      | .error _ => none
    | .error _ => none
  else none

/-! ### The audit log (`logRequestDetails` / `getAuthLogs`) -/

/-- One entry of `authLogs` (interface `AuthLogEntry`): every field except the
timestamp may be `undefined` in a concrete entry. -/
structure AuthLogEntry where
  timestamp : String
  toolName : Option String
  sub : Option String
  act : Option String
  args : Option Json

/-- The claims `logRequestDetails` reads off `jwt.decode`'s result:
`decoded?.sub` and `decoded?.act?.sub`. -/
structure JwtClaims where
  sub : Option String
  actSub : Option String

/-- The slice of an incoming express `Request` the audit-log module touches:
`req.headers['authorization']`, `req.body?.params?.name` and
`req.body?.params?.arguments`. -/
structure JsRequest where
  authorization : Option String
  bodyParamsName : Option String
  bodyParamsArguments : Option Json

/-- Model of `logRequestDetails(req)`, explicit-state form: takes the `jwt.decode` of
the external `jsonwebtoken` library as a function (it returns the unverified
claims, `null` — here `.ok none` — for a malformed token, and `.error` models
a throw, which the module's `catch` turns into a `console.error` with no
append), the current clock reading (`new Date().toISOString()`), and the
current `authLogs` array; returns the updated array. -/
def logRequestDetails (decodeJwt : String → Except Unit (Option JwtClaims))
    (req : JsRequest) (now : String) (authLogs : List AuthLogEntry) :
    List AuthLogEntry :=
  match req.authorization with
  | some authHeader =>
    if jsStartsWith authHeader "Bearer " then
      let token := jsSubstringFrom authHeader 7
      match decodeJwt token with
      | .ok decoded =>
        authLogs ++ [{ timestamp := now,
                       toolName := req.bodyParamsName,
                       sub := decoded.bind (fun c => c.sub),
                       act := decoded.bind (fun c => c.actSub),
                       args := req.bodyParamsArguments }]
      | .error _ => authLogs
    else authLogs
  | none => authLogs

/-- Model of `getAuthLogs()`: returns the `authLogs` array as is. -/
def getAuthLogs (authLogs : List AuthLogEntry) : List AuthLogEntry :=
  authLogs

/-- The Bearer token of a request, when its `authorization` header carries
one (the guard of `logRequestDetails`). -/
def bearerTokenOf (req : JsRequest) : Option String :=
  match req.authorization with
  | some authHeader =>
    if jsStartsWith authHeader "Bearer " then some (jsSubstringFrom authHeader 7)
    else none
  | none => none

/-- A run of the server, audit-log-wise: `logRequestDetails` applied to a
sequence of (request, clock reading) pairs. -/
def runAuthLog (decodeJwt : String → Except Unit (Option JwtClaims)) :
    List (JsRequest × String) → List AuthLogEntry → List AuthLogEntry
  | [], authLogs => authLogs
  | (req, now) :: rest, authLogs =>
    runAuthLog decodeJwt rest (logRequestDetails decodeJwt req now authLogs)

/-- Lexicographic byte order on strings; on ISO-8601 timestamps (fixed-width
`new Date().toISOString()` output) it coincides with chronological order. -/
def charListLe : List Char → List Char → Bool
  | [], _ => true
  | _ :: _, [] => false
  | a :: as, b :: bs =>
    if a.toNat < b.toNat then true
    else if a.toNat = b.toNat then charListLe as bs
    else false

/-- String `a` is at or before `b`. -/
def strLe (a b : String) : Bool := charListLe a.data b.data

/-- Predicate for "sorted by timestamp descending, newest first". -/
def sortedByTimestampDesc (l : List AuthLogEntry) : Prop :=
  l.Pairwise (fun a b => strLe b.timestamp a.timestamp = true)

/-! ### The token store (`SessionOAuthProvider.js`) -/

/-- The token object handed to `saveTokens`; only its `access_token` property
is ever read, and it may be missing. -/
structure OAuthTokens where
  access_token : Option String
deriving DecidableEq

/-- The two private fields of a `SessionOAuthProvider` instance. -/
structure SessionOAuthProvider where
  tokensField : Option OAuthTokens
  clientInformationField : Option Json

/-- Model of `new SessionOAuthProvider()`: both fields start `null`. -/
def SessionOAuthProvider.init : SessionOAuthProvider := ⟨none, none⟩

/-- Model of `saveTokens(tokens)` -/
def SessionOAuthProvider.saveTokens (s : SessionOAuthProvider)
    (tokens : OAuthTokens) : SessionOAuthProvider :=
  { s with tokensField := some tokens }

/-- Model of `clearToken()`: nulls both fields. -/
def SessionOAuthProvider.clearToken (_s : SessionOAuthProvider) :
    SessionOAuthProvider := ⟨none, none⟩

/-- Model of `getToken()`: throws `'No OAuth token available'` when
`!this._tokens || !this._tokens.access_token` — i.e. when no token object is
held, or the held object's `access_token` is absent or the falsy empty
string. -/
def SessionOAuthProvider.getToken (s : SessionOAuthProvider) :
    Except String String :=
  match s.tokensField with
  | none => .error "No OAuth token available"
  | some tokens =>
    match tokens.access_token with
    | none => .error "No OAuth token available"
    | some a => if a.isEmpty then .error "No OAuth token available" else .ok a

/-- A mutating token-store operation (reads do not change the state). -/
inductive TokenStoreOp where
  | save (tokens : OAuthTokens)
  | clear

/-- Run a sequence of store operations from a fresh provider. -/
def runTokenStoreOps (ops : List TokenStoreOp) : SessionOAuthProvider :=
  ops.foldl
    (fun s op =>
      match op with
      | .save t => s.saveTokens t
      | .clear => s.clearToken)
    SessionOAuthProvider.init

/-- The tokens a sequence of operations saves. -/
def savedTokensOf (ops : List TokenStoreOp) : List OAuthTokens :=
  ops.filterMap (fun op => match op with | .save t => some t | .clear => none)

/-- Specification-side view of "a token is currently held": some `saveTokens`
has happened since the last `clearToken` (false before any save). -/
def tokenHeldSpec (ops : List TokenStoreOp) : Bool :=
  ops.foldl
    (fun _held op =>
      match op with
      | .save _ => true
      | .clear => false)
    false

/-! ### `getEnrollmentHistory` (site-performance tools.ts, embedded in
QUICKSTART.md)

The site-performance server's static dataset file is not among the sources,
so the function is parameterised by the `enrollmentHistories` array it reads;
every theorem about it holds for all datasets. -/

/-- Model of `HistoricalTrial` (site-performance types.ts). -/
structure HistoricalTrial where
  trial_id : String
  phase : String
  therapeutic_area : String
  target_enrollment : ℚ
  actual_enrollment : ℚ
  enrollment_duration_days : ℚ
  screen_failure_rate : ℚ
  dropout_rate : ℚ
  protocol_deviations : ℚ
  completion_year : ℚ
deriving DecidableEq

structure AggregateMetrics where
  total_trials_completed : ℚ
  avg_enrollment_rate : ℚ
  avg_screen_failure_rate : ℚ
  avg_retention_rate : ℚ
  regulatory_inspection_results : String
deriving DecidableEq

/-- Model of `EnrollmentHistory` (site-performance types.ts). -/
structure EnrollmentHistory where
  site_id : String
  site_name : String
  historical_trials : List HistoricalTrial
  aggregate_metrics : AggregateMetrics
deriving DecidableEq

/-- Arguments of `get_enrollment_history` after zod parsing (`years` is
optional; the function's destructuring supplies the default `3`). -/
structure GetEnrollmentHistoryParams where
  site_id : String
  years : Option ℚ
deriving DecidableEq

/-- Return value of `getEnrollmentHistory`. -/
structure EnrollmentHistoryResult where
  site_id : String
  site_name : String
  historical_trials : List HistoricalTrial
  aggregate_metrics : AggregateMetrics
  years_included : ℚ
deriving DecidableEq

/-- Model of `getEnrollmentHistory(params)` over a given dataset and the current year
(`new Date().getFullYear()`, passed explicitly). -/
def getEnrollmentHistory (enrollmentHistories : List EnrollmentHistory)
    (params : GetEnrollmentHistoryParams) (currentYear : ℚ) :
    Except JsError EnrollmentHistoryResult :=
  match enrollmentHistories.find? (fun h => h.site_id == params.site_id) with
  | none =>
    .error (.error ("Enrollment history not found: " ++ params.site_id))
  | some history =>
    let years := params.years.getD 3
    let cutoffYear := currentYear - years
    let filteredTrials := history.historical_trials.filter
      (fun trial => decide (cutoffYear ≤ trial.completion_year))
    .ok { site_id := history.site_id, site_name := history.site_name,
          historical_trials := filteredTrials,
          aggregate_metrics := history.aggregate_metrics,
          years_included := years }

/-! ### Specification-side predicates and concrete fixtures -/

def isAsciiChar (c : Char) : Bool := c.toNat ≤ 127

def isAsciiString (s : String) : Bool := s.data.all isAsciiChar

/-- Predicate for "the pool's disease name contains `filt` case-insensitively" — the
specification-side reading, as contiguous-substring occurrence. -/
def diseaseContains (p : PatientPool) (filt : String) : Prop :=
  (jsToLower filt).data <:+: (jsToLower p.disease).data

/-- A stand-in for `jwt.decode` that succeeds with fixed claims. -/
def decodeStub : String → Except Unit (Option JwtClaims) :=
  fun _ => .ok (some ⟨some "user-1", none⟩)

/-- A request carrying a Bearer token and a tool name. -/
def c2Request : JsRequest :=
  ⟨some "Bearer tok", some "search_patient_pools", none⟩

/-- The audit log after two authenticated requests on consecutive days. -/
def c2LogState : List AuthLogEntry :=
  runAuthLog decodeStub
    [(c2Request, "2024-01-01T00:00:00.000Z"),
     (c2Request, "2024-01-02T00:00:00.000Z")] []

/-- Concrete `tools/call` arguments used to exercise the parity theorem. -/
def c3Args : Option Json :=
  some (.obj [("disease", .str "Lung Cancer"), ("region", .str "Boston"),
              ("min_population", .num 999999999)])

/-- The value `search_patient_pools` computes on `c3Args` (no pool passes the
population bound, so the pools list is empty and the query is echoed). -/
def c3Value : Json :=
  .obj [("pools", .arr []), ("total_count", .num 0),
        ("query", .obj [("disease", .str "Lung Cancer"),
                        ("region", .str "Boston"),
                        ("min_population", .num 999999999)])]

/-- A concrete enrollment history used to exercise the year-window
monotonicity theorem. -/
def c5History : EnrollmentHistory :=
  ⟨"SITE-001", "Boston Medical",
   [⟨"NCT-1", "Phase 3", "Oncology", 100, 95, 300, 0.2, 0.1, 2, 2023⟩,
    ⟨"NCT-2", "Phase 2", "Cardiology", 50, 50, 200, 0.1, 0.05, 1, 2019⟩],
   ⟨2, 0.9, 0.15, 0.85, "Pass"⟩⟩

end CTSite

namespace CTSite

/-! ## Theorems -/

/-- Claim C1, code bug.  The claim says a `search_patient_pools` call that
omits the optional `disease` completes normally with the region/population
filtered pools.  The code instead evaluates `disease.toLowerCase()`
unconditionally inside the filter callback, so for every schema-valid
argument object without `disease` the tool function throws a `TypeError` on
the first pool and the handler takes the error branch: the declared-optional
field is required in practice, contradicting the tool's own input schema. -/
theorem searchPatientPools_throws_without_disease
    (region : String) (minPopulation : ℚ) :
    searchPatientPools ⟨none, region, minPopulation⟩ =
      .error (.typeError
        "Cannot read properties of undefined (reading 'toLowerCase')") ∧
    searchPatientPoolsSchemaParse (some (.obj [("region", .str region)])) =
      .ok ⟨none, region, 0⟩ ∧
    (callToolHandler "search_patient_pools"
      (some (.obj [("region", .str region)]))).isError = true := by
  refine ⟨rfl, rfl, rfl⟩

/-- Claim C8, confirmed.  A `tools/call` naming an undeclared tool gets the
application-level response `isError: true` with text
`"Error: Unknown tool: <name>"`; the handler returns normally. -/
theorem callToolHandler_unknown_tool (name : String) (args : Option Json)
    (h : name ∉ declaredToolNames) :
    callToolHandler name args =
      { content := [⟨"text", "Error: Unknown tool: " ++ name⟩],
        isError := true } := by
  have h1 : name ≠ "search_patient_pools" := by
    intro hc; exact h (by rw [hc]; exact List.mem_cons_self _ _)
  have h2 : name ≠ "get_demographics_by_region" := by
    intro hc
    exact h (by rw [hc]; exact List.mem_cons_of_mem _ (List.mem_cons_self _ _))
  unfold callToolHandler callToolTry
  rw [if_neg h1, if_neg h2]
  show ({ content := [⟨"text", "Error: " ++ ("Unknown tool: " ++ name)⟩],
          isError := true } : CallToolResult) = _
  rw [← String.append_assoc]
  have hlit : ("Error: " ++ "Unknown tool: " : String) = "Error: Unknown tool: " := rfl
  rw [hlit]

/-- Witness for C8 at the concrete undeclared name "nonexistent_tool". -/
theorem callToolHandler_unknown_tool_witness :
    callToolHandler "nonexistent_tool" none =
      { content := [⟨"text", "Error: Unknown tool: nonexistent_tool"⟩],
        isError := true } :=
  callToolHandler_unknown_tool "nonexistent_tool" none (by decide)

/-- Claim C3, confirmed.  Client/server result parity: whenever a declared
tool's schema accepts the arguments and the tool function returns normally
(`directToolCall … = some j`), the handler's response is exactly one content
item of type `text` carrying the serialisation of that very value, and —
since `JSON.parse` inverts `JSON.stringify` on it (the `hdecode` premise,
checked computationally at the witness) — decoding the text yields the
directly-computed result. -/
theorem callToolHandler_parity (name : String) (args : Option Json) (j : Json)
    (hdirect : directToolCall name args = some j)
    (hdecode : jsonParse j.render = some j) :
    (callToolHandler name args).content = [⟨"text", j.render⟩] ∧
    (callToolHandler name args).isError = false ∧
    (callToolHandler name args).content.map (fun item => jsonParse item.text) =
      [some j] := by
  have htry : callToolTry name args = .ok j := by
    unfold directToolCall at hdirect
    by_cases h1 : name = "search_patient_pools"
    · rw [if_pos h1] at hdirect
      unfold callToolTry
      rw [if_pos h1]
      cases hp : searchPatientPoolsSchemaParse args with
      | error e => rw [hp] at hdirect; exact absurd hdirect (by simp)
      | ok params =>
        rw [hp] at hdirect
        dsimp only at hdirect
        cases hr : searchPatientPools params with
        | error e => rw [hr] at hdirect; exact absurd hdirect (by simp)
        | ok r =>
          rw [hr] at hdirect
          simp only [Option.some.injEq] at hdirect
          subst hdirect
          simp [hp, hr, Except.bind, Bind.bind, pure, Except.pure]
    · rw [if_neg h1] at hdirect
      by_cases h2 : name = "get_demographics_by_region"
      · rw [if_pos h2] at hdirect
        unfold callToolTry
        rw [if_neg h1, if_pos h2]
        cases hp : getDemographicsByRegionSchemaParse args with
        | error e => rw [hp] at hdirect; exact absurd hdirect (by simp)
        | ok params =>
          rw [hp] at hdirect
          dsimp only at hdirect
          cases hr : getDemographicsByRegion params with
          | error e => rw [hr] at hdirect; exact absurd hdirect (by simp)
          | ok r =>
            rw [hr] at hdirect
            simp only [Option.some.injEq] at hdirect
            subst hdirect
            simp [hp, hr, Except.bind, Bind.bind, pure, Except.pure]
      · rw [if_neg h2] at hdirect; exact absurd hdirect (by simp)
  unfold callToolHandler
  rw [htry]
  exact ⟨rfl, rfl, by simp [hdecode]⟩

/-- Witness for C3: a concrete `search_patient_pools` call whose response
text decodes to the directly-computed result. -/
theorem callToolHandler_parity_witness :
    (callToolHandler "search_patient_pools" c3Args).content =
      [⟨"text", c3Value.render⟩] ∧
    (callToolHandler "search_patient_pools" c3Args).isError = false ∧
    (callToolHandler "search_patient_pools" c3Args).content.map
      (fun item => jsonParse item.text) = [some c3Value] :=
  callToolHandler_parity "search_patient_pools" c3Args c3Value rfl rfl

/-- Claim C5, confirmed.  For every enrollment-history dataset (the site-
performance server's static data file is not among the sources, so the
theorem quantifies over it): widening the `years` window only grows the
returned trial list — for `y1 ≤ y2` the `y1`-window list is a subset of the
`y2`-window list — and the call fails, always with the "not found" message,
exactly when the site itself is absent; the year filter alone never produces
an error. -/
theorem getEnrollmentHistory_spec (histories : List EnrollmentHistory)
    (sid : String) (currentYear : ℚ) :
    (∀ y1 y2 r1 r2, y1 ≤ y2 →
      getEnrollmentHistory histories ⟨sid, some y1⟩ currentYear = .ok r1 →
      getEnrollmentHistory histories ⟨sid, some y2⟩ currentYear = .ok r2 →
      r1.historical_trials ⊆ r2.historical_trials) ∧
    (∀ years,
      (∃ e, getEnrollmentHistory histories ⟨sid, years⟩ currentYear =
        .error e) ↔
      histories.find? (fun h => h.site_id == sid) = none) ∧
    (∀ years e,
      getEnrollmentHistory histories ⟨sid, years⟩ currentYear = .error e →
      e = .error ("Enrollment history not found: " ++ sid)) := by
  cases hf : histories.find? (fun h => h.site_id == sid) with
  | none =>
    have hval : ∀ years,
        getEnrollmentHistory histories ⟨sid, years⟩ currentYear =
          .error (.error ("Enrollment history not found: " ++ sid)) := by
      intro years
      unfold getEnrollmentHistory
      rw [hf]
    refine ⟨?_, ?_, ?_⟩
    · intro y1 y2 r1 r2 _ h1 _
      rw [hval] at h1
      cases h1
    · intro years
      constructor
      · intro _
        rfl
      · intro _
        exact ⟨_, hval years⟩
    · intro years e he
      rw [hval] at he
      injection he with he'
      exact he'.symm
  | some history =>
    refine ⟨?_, ?_, ?_⟩
    · intro y1 y2 r1 r2 hy h1 h2
      unfold getEnrollmentHistory at h1 h2
      rw [hf] at h1 h2
      dsimp only [Option.getD] at h1 h2
      injection h1 with h1'
      injection h2 with h2'
      subst h1'
      subst h2'
      dsimp only [Option.getD]
      intro t ht
      rw [List.mem_filter] at ht ⊢
      refine ⟨ht.1, ?_⟩
      apply decide_eq_true
      have hcut := of_decide_eq_true ht.2
      have : currentYear - y2 ≤ currentYear - y1 := by linarith
      linarith
    · intro years
      constructor
      · rintro ⟨e, he⟩
        unfold getEnrollmentHistory at he
        rw [hf] at he
        dsimp only at he
        exact Except.noConfusion he
      · intro hc
        exact Option.noConfusion hc
    · intro years e he
      unfold getEnrollmentHistory at he
      rw [hf] at he
      dsimp only at he
      exact Except.noConfusion he

/-- Witness for C5: a two-trial site at years 1 vs 5 (window subset), and the
not-found equivalence on the empty dataset. -/
theorem getEnrollmentHistory_spec_witness :
    (([⟨"NCT-1", "Phase 3", "Oncology", 100, 95, 300, 0.2, 0.1, 2, 2023⟩] :
        List HistoricalTrial) ⊆
      [⟨"NCT-1", "Phase 3", "Oncology", 100, 95, 300, 0.2, 0.1, 2, 2023⟩,
       ⟨"NCT-2", "Phase 2", "Cardiology", 50, 50, 200, 0.1, 0.05, 1, 2019⟩]) ∧
    ((∃ e, getEnrollmentHistory [] ⟨"SITE-404", none⟩ 2024 = .error e) ↔
      ([] : List EnrollmentHistory).find?
        (fun h => h.site_id == "SITE-404") = none) := by
  constructor
  · have hsub := (getEnrollmentHistory_spec [c5History] "SITE-001" 2024).1 1 5
      ⟨"SITE-001", "Boston Medical",
       [⟨"NCT-1", "Phase 3", "Oncology", 100, 95, 300, 0.2, 0.1, 2, 2023⟩],
       ⟨2, 0.9, 0.15, 0.85, "Pass"⟩, 1⟩
      ⟨"SITE-001", "Boston Medical",
       [⟨"NCT-1", "Phase 3", "Oncology", 100, 95, 300, 0.2, 0.1, 2, 2023⟩,
        ⟨"NCT-2", "Phase 2", "Cardiology", 50, 50, 200, 0.1, 0.05, 1, 2019⟩],
       ⟨2, 0.9, 0.15, 0.85, "Pass"⟩, 5⟩
      (by norm_num) (by with_unfolding_all rfl) (by with_unfolding_all rfl)
    exact hsub
  · exact (getEnrollmentHistory_spec [] "SITE-404" 2024).2.1 none

/-- Invariant of running token-store operations: the held-token field is
empty exactly when the held-spec boolean is false, and any held token object
carries a non-empty access token (assuming every saved one does). -/
theorem tokenStore_run_invariant (ops : List TokenStoreOp) :
    ∀ (s : SessionOAuthProvider) (b : Bool),
    (∀ t ∈ savedTokensOf ops, ∃ a, t.access_token = some a ∧ a ≠ "") →
    ((s.tokensField = none ↔ b = false) ∧
     (s.tokensField = none ∨
       ∃ t a, s.tokensField = some t ∧ t.access_token = some a ∧ a ≠ "")) →
    (((ops.foldl (fun s op =>
        match op with
        | .save t => s.saveTokens t
        | .clear => s.clearToken) s).tokensField = none ↔
      (ops.foldl (fun _held op =>
        match op with
        | .save _ => true
        | .clear => false) b) = false) ∧
     ((ops.foldl (fun s op =>
        match op with
        | .save t => s.saveTokens t
        | .clear => s.clearToken) s).tokensField = none ∨
       ∃ t a, (ops.foldl (fun s op =>
        match op with
        | .save t => s.saveTokens t
        | .clear => s.clearToken) s).tokensField = some t ∧
         t.access_token = some a ∧ a ≠ "")) := by
  induction ops with
  | nil =>
    intro s b _ hinv
    exact hinv
  | cons op rest ih =>
    intro s b hsaved hinv
    rw [List.foldl_cons, List.foldl_cons]
    cases op with
    | save t =>
      apply ih
      · intro t' ht'
        exact hsaved t' (List.mem_cons_of_mem _ ht')
      · constructor
        · simp [SessionOAuthProvider.saveTokens]
        · right
          obtain ⟨a, ha, hne⟩ := hsaved t (List.mem_cons_self _ _)
          exact ⟨t, a, rfl, ha, hne⟩
    | clear =>
      apply ih
      · intro t' ht'
        exact hsaved t' ht'
      · exact ⟨by simp [SessionOAuthProvider.clearToken], Or.inl rfl⟩

/-- Claim C7, confirmed.  `getToken()` throws "No OAuth token available" on a
fresh provider and after `clearToken()`; after `saveTokens` stores a token
object carrying a (non-empty) `access_token`, `getToken()` returns exactly
that access token; and over every operation sequence whose saved tokens carry
an access token, `getToken` fails exactly in the no-token-held states. -/
theorem sessionOAuthProvider_spec :
    SessionOAuthProvider.init.getToken = .error "No OAuth token available" ∧
    (∀ (s : SessionOAuthProvider) (tokens : OAuthTokens) (a : String),
      tokens.access_token = some a → a ≠ "" →
      (s.saveTokens tokens).getToken = .ok a) ∧
    (∀ s : SessionOAuthProvider,
      s.clearToken.getToken = .error "No OAuth token available") ∧
    (∀ ops,
      (∀ t ∈ savedTokensOf ops, ∃ a, t.access_token = some a ∧ a ≠ "") →
      (((runTokenStoreOps ops).getToken =
          .error "No OAuth token available") ↔ tokenHeldSpec ops = false) ∧
      ((runTokenStoreOps ops).tokensField = none ↔
        tokenHeldSpec ops = false)) := by
  have hget_none : ∀ s : SessionOAuthProvider, s.tokensField = none →
      s.getToken = .error "No OAuth token available" := by
    intro s hs
    unfold SessionOAuthProvider.getToken
    rw [hs]
  have hget_some : ∀ (s : SessionOAuthProvider) t a,
      s.tokensField = some t → t.access_token = some a → a ≠ "" →
      s.getToken = .ok a := by
    intro s t a hs ha hne
    unfold SessionOAuthProvider.getToken
    rw [hs]
    dsimp only
    rw [ha]
    dsimp only
    have : a.isEmpty = false := by
      rw [Bool.eq_false_iff]
      intro hc
      exact hne ((String.isEmpty_iff a).mp hc)
    rw [this]
    simp
  refine ⟨rfl, ?_, fun s => rfl, ?_⟩
  · intro s tokens a ha hne
    exact hget_some (s.saveTokens tokens) tokens a rfl ha hne
  · intro ops hsaved
    have hinv := tokenStore_run_invariant ops SessionOAuthProvider.init false
      hsaved ⟨by simp [SessionOAuthProvider.init], Or.inl rfl⟩
    have hrun : runTokenStoreOps ops = ops.foldl (fun s op =>
        match op with
        | .save t => s.saveTokens t
        | .clear => s.clearToken) SessionOAuthProvider.init := rfl
    have hheld : tokenHeldSpec ops = ops.foldl (fun _held op =>
        match op with
        | .save _ => true
        | .clear => false) false := rfl
    rw [hrun, hheld]
    refine ⟨?_, hinv.1⟩
    rcases hinv.2 with hno | ⟨t, a, hsome, ha, hne⟩
    · rw [← hinv.1]
      constructor
      · intro _
        exact hno
      · intro _
        exact hget_none _ hno
    · rw [← hinv.1]
      constructor
      · intro herr
        rw [hget_some _ t a hsome ha hne] at herr
        exact Except.noConfusion herr
      · intro hnone
        rw [hsome] at hnone
        exact Option.noConfusion hnone

/-- Witness for C7: saving a concrete token makes `getToken` return it, and
after a save-then-clear sequence the error state is restored. -/
theorem sessionOAuthProvider_spec_witness :
    (SessionOAuthProvider.init.saveTokens ⟨some "tok-abc"⟩).getToken =
      .ok "tok-abc" ∧
    ((runTokenStoreOps [.save ⟨some "tok-abc"⟩, .clear]).getToken =
        .error "No OAuth token available" ↔
      tokenHeldSpec [.save ⟨some "tok-abc"⟩, .clear] = false) := by
  constructor
  · exact sessionOAuthProvider_spec.2.1 _ ⟨some "tok-abc"⟩ "tok-abc" rfl
      (by decide)
  · refine (sessionOAuthProvider_spec.2.2.2 [.save ⟨some "tok-abc"⟩, .clear]
      ?_).1
    intro t ht
    simp only [savedTokensOf, List.filterMap] at ht
    simp at ht
    subst ht
    exact ⟨"tok-abc", rfl, by decide⟩

/-- Each `logRequestDetails` call either leaves the log unchanged or appends
exactly one entry, timestamped with the current clock reading. -/
theorem logRequestDetails_cases (d : String → Except Unit (Option JwtClaims))
    (req : JsRequest) (now : String) (logs : List AuthLogEntry) :
    logRequestDetails d req now logs = logs ∨
    ∃ e, e.timestamp = now ∧
      logRequestDetails d req now logs = logs ++ [e] := by
  unfold logRequestDetails
  cases req.authorization with
  | none => exact Or.inl rfl
  | some authHeader =>
    dsimp only
    by_cases hb : jsStartsWith authHeader "Bearer " = true
    · rw [if_pos hb]
      cases d (jsSubstringFrom authHeader 7) with
      | ok c => exact Or.inr ⟨_, rfl, rfl⟩
      | error e => exact Or.inl rfl
    · rw [if_neg hb]
      exact Or.inl rfl

/-- Claim C10, confirmed.  `logRequestDetails` appends exactly one entry —
with the claims read off the unverified decode — when the request carries a
`Bearer` header whose token decodes without throwing, and appends nothing
otherwise (no header, non-Bearer header, or a decode throw caught by the
`catch`); it never mutates or removes existing entries, so `getAuthLogs` is a
prefix-preserving extension of non-decreasing length across calls. -/
theorem logRequestDetails_append_only
    (decodeJwt : String → Except Unit (Option JwtClaims)) (req : JsRequest)
    (now : String) (authLogs : List AuthLogEntry) :
    (∀ tok, bearerTokenOf req = some tok →
      (∀ c, decodeJwt tok = .ok c →
        logRequestDetails decodeJwt req now authLogs =
          authLogs ++ [{ timestamp := now, toolName := req.bodyParamsName,
                         sub := c.bind (fun x => x.sub),
                         act := c.bind (fun x => x.actSub),
                         args := req.bodyParamsArguments }]) ∧
      (decodeJwt tok = .error () →
        logRequestDetails decodeJwt req now authLogs = authLogs)) ∧
    (bearerTokenOf req = none →
      logRequestDetails decodeJwt req now authLogs = authLogs) ∧
    getAuthLogs authLogs <+:
      getAuthLogs (logRequestDetails decodeJwt req now authLogs) ∧
    (getAuthLogs authLogs).length ≤
      (getAuthLogs (logRequestDetails decodeJwt req now authLogs)).length := by
  refine ⟨?_, ?_, ?_, ?_⟩
  · intro tok htok
    unfold bearerTokenOf at htok
    constructor
    · intro c hc
      unfold logRequestDetails
      cases hauth : req.authorization with
      | none =>
        rw [hauth] at htok
        exact Option.noConfusion htok
      | some authHeader =>
        rw [hauth] at htok
        dsimp only at htok ⊢
        by_cases hb : jsStartsWith authHeader "Bearer " = true
        · rw [if_pos hb] at htok
          injection htok with htok'
          rw [if_pos hb, htok', hc]
        · rw [if_neg hb] at htok
          exact Option.noConfusion htok
    · intro hc
      unfold logRequestDetails
      cases hauth : req.authorization with
      | none => rfl
      | some authHeader =>
        rw [hauth] at htok
        dsimp only at htok ⊢
        by_cases hb : jsStartsWith authHeader "Bearer " = true
        · rw [if_pos hb] at htok
          injection htok with htok'
          rw [if_pos hb, htok', hc]
        · rw [if_neg hb]
  · intro hnone
    unfold bearerTokenOf at hnone
    unfold logRequestDetails
    cases hauth : req.authorization with
    | none => rfl
    | some authHeader =>
      rw [hauth] at hnone
      dsimp only at hnone ⊢
      by_cases hb : jsStartsWith authHeader "Bearer " = true
      · rw [if_pos hb] at hnone
        exact Option.noConfusion hnone
      · rw [if_neg hb]
  · rcases logRequestDetails_cases decodeJwt req now authLogs with heq |
      ⟨e, _, heq⟩
    · unfold getAuthLogs
      rw [heq]
    · unfold getAuthLogs
      rw [heq]
      exact List.prefix_append _ _
  · rcases logRequestDetails_cases decodeJwt req now authLogs with heq |
      ⟨e, _, heq⟩
    · unfold getAuthLogs
      rw [heq]
    · unfold getAuthLogs
      rw [heq]
      simp

/-- Witness for C10: one authenticated request appends exactly its entry. -/
theorem logRequestDetails_append_only_witness :
    logRequestDetails decodeStub c2Request "2024-01-01T00:00:00.000Z" [] =
      [] ++ [{ timestamp := "2024-01-01T00:00:00.000Z",
               toolName := some "search_patient_pools",
               sub := some "user-1", act := none, args := none }] :=
  ((logRequestDetails_append_only decodeStub c2Request
      "2024-01-01T00:00:00.000Z" []).1 "tok" rfl).1
    (some ⟨some "user-1", none⟩) rfl

/-- Claim C2, counterexample.  `getAuthLogs` performs no sorting: it returns
the `authLogs` array in append order.  After two authenticated requests on
consecutive days the returned sequence is oldest-first — ascending, not the
claimed descending/newest-first order (that sort happens in the reading UI
component, not in this read operation). -/
theorem getAuthLogs_not_sorted_desc :
    (getAuthLogs c2LogState).map (fun e => e.timestamp) =
      ["2024-01-01T00:00:00.000Z", "2024-01-02T00:00:00.000Z"] ∧
    ¬ sortedByTimestampDesc (getAuthLogs c2LogState) :=
  ⟨rfl, by unfold sortedByTimestampDesc; decide⟩

/-- Under a monotone clock, a run of `logRequestDetails` calls keeps the log
ascending by timestamp (append order), starting from any suitably-bounded
log. -/
theorem runAuthLog_sorted_asc (d : String → Except Unit (Option JwtClaims)) :
    ∀ (events : List (JsRequest × String)) (logs : List AuthLogEntry),
    (logs.map (fun e => e.timestamp)).Pairwise
      (fun s t => strLe s t = true) →
    (∀ e ∈ logs, ∀ t ∈ events.map Prod.snd, strLe e.timestamp t = true) →
    (events.map Prod.snd).Pairwise (fun s t => strLe s t = true) →
    ((runAuthLog d events logs).map (fun e => e.timestamp)).Pairwise
      (fun s t => strLe s t = true) := by
  intro events
  induction events with
  | nil =>
    intro logs h1 _ _
    exact h1
  | cons ev rest ih =>
    obtain ⟨req, now⟩ := ev
    intro logs h1 h2 h3
    simp only [List.map_cons] at h3
    have h3' : (rest.map Prod.snd).Pairwise (fun s t => strLe s t = true) :=
      (List.pairwise_cons.mp h3).2
    have hnow : ∀ t ∈ rest.map Prod.snd, strLe now t = true :=
      (List.pairwise_cons.mp h3).1
    dsimp only [runAuthLog]
    rcases logRequestDetails_cases d req now logs with heq | ⟨e, het, heq⟩
    · rw [heq]
      apply ih logs h1 ?_ h3'
      intro e he t ht
      exact h2 e he t (by simp only [List.map_cons]; exact List.mem_cons_of_mem _ ht)
    · rw [heq]
      apply ih (logs ++ [e]) ?_ ?_ h3'
      · rw [List.map_append, List.pairwise_append]
        refine ⟨h1, by simp, ?_⟩
        intro s hs t ht
        simp only [List.map_cons, List.map_nil, List.mem_singleton] at ht
        subst ht
        rw [het]
        obtain ⟨x, hx, hxs⟩ := List.mem_map.mp hs
        subst hxs
        exact h2 x hx now (by simp only [List.map_cons]; exact List.mem_cons_self _ _)
      · intro x hx t ht
        rw [List.mem_append] at hx
        rcases hx with hx | hx
        · exact h2 x hx t
            (by simp only [List.map_cons]; exact List.mem_cons_of_mem _ ht)
        · rw [List.mem_singleton] at hx
          subst hx
          rw [het]
          exact hnow t ht

/-- Claim C2, amended: `getAuthLogs` returns all accumulated entries exactly
as stored, i.e. in append order — oldest first (ascending by timestamp under
a monotone clock), not newest first; the descending sort the spec describes
is applied by the reading client. -/
theorem getAuthLogs_returns_append_order
    (decodeJwt : String → Except Unit (Option JwtClaims))
    (events : List (JsRequest × String))
    (hmono : (events.map Prod.snd).Pairwise (fun s t => strLe s t = true)) :
    getAuthLogs (runAuthLog decodeJwt events []) =
      runAuthLog decodeJwt events [] ∧
    ((runAuthLog decodeJwt events []).map (fun e => e.timestamp)).Pairwise
      (fun s t => strLe s t = true) := by
  refine ⟨rfl, ?_⟩
  apply runAuthLog_sorted_asc decodeJwt events []
  · exact List.Pairwise.nil
  · intro e he
    cases he
  · exact hmono

/-- Witness for the amended C2 at the two-request run. -/
theorem getAuthLogs_returns_append_order_witness :
    getAuthLogs c2LogState = c2LogState ∧
    (c2LogState.map (fun e => e.timestamp)).Pairwise
      (fun s t => strLe s t = true) :=
  getAuthLogs_returns_append_order decodeStub
    [(c2Request, "2024-01-01T00:00:00.000Z"),
     (c2Request, "2024-01-02T00:00:00.000Z")] (by decide)

/-- Claim C4, counterexample.  The claim says that whenever `disease_filter`
is given, the result carries exactly the region's pools whose disease name
contains the filter.  At region `US-NE-001` with the given filter `""` the
code returns `disease_specific_data: null` (the empty string is falsy at
`if (disease_filter)`), although the set of pools whose disease contains the
empty string case-insensitively is non-empty — so the claim fails there. -/
theorem getDemographicsByRegion_empty_filter_counterexample :
    (getDemographicsByRegion ⟨"US-NE-001", some ""⟩).map
      (fun r => r.disease_specific_data) = .ok none ∧
    patientPools.filter (fun p => p.region_id == "US-NE-001" &&
      jsIncludes (jsToLower p.disease) (jsToLower "")) ≠ [] :=
  ⟨rfl, by decide⟩

/-- Claim C4, amended: `get_demographics_by_region` looks its region up by
exact identifier match — the record returned is the unique one with that id —
and fails with `"Region not found: <id>"` exactly when there is none; a
*non-empty* `disease_filter` attaches exactly the pools of that region whose
disease name contains it case-insensitively, while an absent — or empty,
hence falsy — filter leaves `disease_specific_data` as `null`. -/
theorem getDemographicsByRegion_spec (rid : String) (df : Option String) :
    (regionDemographics.find? (fun r => r.region_id == rid) = none →
      getDemographicsByRegion ⟨rid, df⟩ =
        .error (.error ("Region not found: " ++ rid))) ∧
    (∀ d, regionDemographics.find? (fun r => r.region_id == rid) = some d →
      d.region_id = rid ∧
      (∀ d' ∈ regionDemographics, d'.region_id = rid → d' = d) ∧
      ∃ res, getDemographicsByRegion ⟨rid, df⟩ = .ok res ∧
        res.demographics = d ∧
        (match df with
         | none => res.disease_specific_data = none
         | some filt =>
           if filt = "" then res.disease_specific_data = none
           else ∃ l, res.disease_specific_data = some l ∧
             ∀ p, p ∈ l ↔
               p ∈ patientPools ∧ p.region_id = rid ∧ diseaseContains p filt)) := by
  constructor
  · intro hf
    unfold getDemographicsByRegion
    rw [hf]
  · intro d hf
    have hmem : d ∈ regionDemographics := List.mem_of_find?_eq_some hf
    have hdrid : d.region_id = rid := by
      have := List.find?_some hf
      simpa using this
    refine ⟨hdrid, ?_, ?_⟩
    · intro d' hd' hrid'
      have hnodup : (regionDemographics.map (fun r => r.region_id)).Nodup := by
        decide
      exact List.inj_on_of_nodup_map hnodup hd' hmem (by rw [hrid', hdrid])
    · unfold getDemographicsByRegion
      rw [hf]
      cases df with
      | none => exact ⟨_, rfl, rfl, rfl⟩
      | some filt =>
        by_cases hfe : filt = ""
        · subst hfe
          refine ⟨_, rfl, rfl, ?_⟩
          dsimp only
          rw [if_pos rfl]
          rfl
        · have hne : filt.isEmpty = false := by
            rw [Bool.eq_false_iff]
            intro hc
            exact hfe ((String.isEmpty_iff filt).mp hc)
          refine ⟨_, rfl, rfl, ?_⟩
          dsimp only
          rw [if_neg hfe, hne]
          refine ⟨List.filter (fun pool => pool.region_id == rid &&
            jsIncludes (jsToLower pool.disease) (jsToLower filt)) patientPools,
            ?_, ?_⟩
          · simp only [Bool.false_eq_true, if_false]
          · intro p
            rw [List.mem_filter]
            constructor
            · rintro ⟨hp, hcond⟩
              rw [Bool.and_eq_true] at hcond
              refine ⟨hp, by simpa using hcond.1, ?_⟩
              have := hcond.2
              unfold jsIncludes at this
              unfold diseaseContains
              exact of_decide_eq_true this
            · rintro ⟨hp, hrid2, hcont⟩
              refine ⟨hp, ?_⟩
              rw [Bool.and_eq_true]
              unfold diseaseContains at hcont
              exact ⟨by simpa using hrid2, decide_eq_true hcont⟩

/-- Witness for the amended C4: the not-found branch at a concrete absent id,
and the uniqueness conjunct at region `US-CA-001`. -/
theorem getDemographicsByRegion_spec_witness :
    getDemographicsByRegion ⟨"US-XX-999", none⟩ =
      .error (.error "Region not found: US-XX-999") ∧
    ({ region_id := "US-CA-001", region_name := "San Francisco Bay Area",
       total_population := 7700000,
       healthcare_access := ⟨0.94, 0.88, 0.86⟩,
       enrollment_velocity := ⟨13, 0.21, 0.89⟩,
       socioeconomic := ⟨112000, ⟨0.92, 0.58, 0.31⟩⟩ } :
         RegionDemographics).region_id = "US-CA-001" :=
  ⟨(getDemographicsByRegion_spec "US-XX-999" none).1 rfl,
   ((getDemographicsByRegion_spec "US-CA-001" (some "lung")).2 _ rfl).1⟩

/-- Claim C9, confirmed.  For a region id present in the dataset, passing
`disease_filter: ""` behaves exactly like omitting the filter: the empty
string is falsy at `if (disease_filter)`, so `disease_specific_data` stays
`null` rather than matching every pool of the region. -/
theorem getDemographicsByRegion_empty_filter_is_absent (rid : String)
    (h : (regionDemographics.find? (fun r => r.region_id == rid)).isSome =
      true) :
    getDemographicsByRegion ⟨rid, some ""⟩ =
      getDemographicsByRegion ⟨rid, none⟩ ∧
    (getDemographicsByRegion ⟨rid, some ""⟩).map
      (fun r => r.disease_specific_data) = .ok none := by
  unfold getDemographicsByRegion
  cases hf : regionDemographics.find? (fun r => r.region_id == rid) with
  | none => rw [hf] at h; simp [Option.isSome] at h
  | some d => exact ⟨rfl, rfl⟩

/-- The JavaScript case maps act predictably on the ASCII range: lower and
upper are idempotent there, and each absorbs the other on the left.  Checked
by evaluation over all 128 ASCII code points. -/
theorem asciiCaseMapFacts : ∀ n, n < 128 →
    jsCharToLower (jsCharToUpper (Char.ofNat n)) =
      jsCharToLower (Char.ofNat n) ∧
    jsCharToUpper (jsCharToUpper (Char.ofNat n)) =
      jsCharToUpper (Char.ofNat n) ∧
    jsCharToLower (jsCharToLower (Char.ofNat n)) =
      jsCharToLower (Char.ofNat n) ∧
    jsCharToUpper (jsCharToLower (Char.ofNat n)) =
      jsCharToUpper (Char.ofNat n) := by decide

/-- Transfer of `asciiCaseMapFacts` to an ASCII character. -/
theorem asciiCaseMapFacts_char (c : Char) (h : isAsciiChar c = true) :
    jsCharToLower (jsCharToUpper c) = jsCharToLower c ∧
    jsCharToUpper (jsCharToUpper c) = jsCharToUpper c ∧
    jsCharToLower (jsCharToLower c) = jsCharToLower c ∧
    jsCharToUpper (jsCharToLower c) = jsCharToUpper c := by
  have hlt : c.toNat < 128 := by
    unfold isAsciiChar at h
    have := of_decide_eq_true h
    omega
  have := asciiCaseMapFacts c.toNat hlt
  rwa [Char.ofNat_toNat] at this

/-- On ASCII strings, lower-casing after upper-casing equals lower-casing. -/
theorem jsToLower_jsToUpper_ascii (s : String) (h : isAsciiString s = true) :
    jsToLower (jsToUpper s) = jsToLower s := by
  unfold jsToLower jsToUpper
  apply congrArg String.mk
  rw [List.map_map]
  apply List.map_congr_left
  intro c hc
  have hcA : isAsciiChar c = true := by
    unfold isAsciiString at h
    exact List.all_eq_true.mp h c hc
  exact (asciiCaseMapFacts_char c hcA).1

/-- On ASCII strings, upper-casing is idempotent. -/
theorem jsToUpper_idem_ascii (s : String) (h : isAsciiString s = true) :
    jsToUpper (jsToUpper s) = jsToUpper s := by
  unfold jsToUpper
  apply congrArg String.mk
  rw [List.map_map]
  apply List.map_congr_left
  intro c hc
  have hcA : isAsciiChar c = true := by
    unfold isAsciiString at h
    exact List.all_eq_true.mp h c hc
  exact (asciiCaseMapFacts_char c hcA).2.1

/-- On ASCII strings, lower-casing is idempotent. -/
theorem jsToLower_idem_ascii (s : String) (h : isAsciiString s = true) :
    jsToLower (jsToLower s) = jsToLower s := by
  unfold jsToLower
  apply congrArg String.mk
  rw [List.map_map]
  apply List.map_congr_left
  intro c hc
  have hcA : isAsciiChar c = true := by
    unfold isAsciiString at h
    exact List.all_eq_true.mp h c hc
  exact (asciiCaseMapFacts_char c hcA).2.2.1

/-- On ASCII strings, upper-casing after lower-casing equals upper-casing. -/
theorem jsToUpper_jsToLower_ascii (s : String) (h : isAsciiString s = true) :
    jsToUpper (jsToLower s) = jsToUpper s := by
  unfold jsToUpper jsToLower
  apply congrArg String.mk
  rw [List.map_map]
  apply List.map_congr_left
  intro c hc
  have hcA : isAsciiChar c = true := by
    unfold isAsciiString at h
    exact List.all_eq_true.mp h c hc
  exact (asciiCaseMapFacts_char c hcA).2.2.2

/-- Any value `regionMap` can yield is one of the six region codes. -/
theorem regionMap_lookup_mem (k v : String)
    (h : regionMap.lookup k = some v) :
    v = "US-NE" ∨ v = "US-CA" ∨ v = "US-TX" ∨ v = "US-FL" ∨ v = "US-IL" ∨
      v = "US-WA" := by
  unfold regionMap at h
  simp only [List.lookup] at h
  repeat' split at h
  all_goals simp_all

/-- Each of the six region codes normalizes to itself. -/
theorem normalizeRegion_code_fixed (code : String)
    (h : code = "US-NE" ∨ code = "US-CA" ∨ code = "US-TX" ∨
      code = "US-FL" ∨ code = "US-IL" ∨ code = "US-WA") :
    normalizeRegion code = .str code := by
  rcases h with rfl | rfl | rfl | rfl | rfl | rfl <;> decide

/-- Claim C6, counterexample.  Region normalization is *not* idempotent, and
unrecognized inputs do *not* all pass through upper-cased, in two distinct
ways.  (1) Non-ASCII: ECMAScript `toUpperCase` maps U+017F ('ſ') to the
ASCII 'S', so the unrecognized "northeaſt" passes through as "NORTHEAST" and
a second application resolves it through the table to "US-NE".  (2) Even
ASCII: for "Constructor" the lookup key is "constructor", which the object
literal inherits from `Object.prototype`, so `regionMap[normalized]` is the
truthy built-in constructor function — returned instead of the upper-cased
input — and a second application throws a `TypeError`. -/
theorem normalizeRegion_not_idempotent :
    normalizeRegion "northeaſt" = .str "NORTHEAST" ∧
    normalizeRegionValue (normalizeRegion "northeaſt") =
      .ok (.str "US-NE") ∧
    normalizeRegionValue (normalizeRegion "northeaſt") ≠
      .ok (normalizeRegion "northeaſt") ∧
    normalizeRegion "Constructor" = .protoMember "constructor" ∧
    normalizeRegion "Constructor" ≠ .str (jsToUpper "Constructor") ∧
    normalizeRegionValue (normalizeRegion "Constructor") =
      .error (.typeError "region.toLowerCase is not a function") := by
  refine ⟨by decide, by decide, by decide, by decide, by decide, by decide⟩

/-- Claim C6, amended: restricted to inputs that are ASCII — the only range
on which the JavaScript case conversions stay within themselves — and whose
lookup key avoids the `Object.prototype` member names the object literal
inherits, normalization is idempotent (a second application neither changes
the value nor throws) and case-insensitive; the table is consulted with the
lower-cased, whitespace-to-hyphen-collapsed key, table hits map to the
region code, and misses pass through upper-cased unchanged. -/
theorem normalizeRegion_ascii_spec (r : String)
    (h : isAsciiString r = true)
    (hproto : jsReplaceWsWithHyphen (jsToLower r) ∉ objectProtoKeys) :
    normalizeRegionValue (normalizeRegion r) = .ok (normalizeRegion r) ∧
    normalizeRegion r = normalizeRegion (jsToLower r) ∧
    (∀ code,
      regionMap.lookup (jsReplaceWsWithHyphen (jsToLower r)) = some code →
      normalizeRegion r = .str code) ∧
    (regionMap.lookup (jsReplaceWsWithHyphen (jsToLower r)) = none →
      normalizeRegion r = .str (jsToUpper r)) := by
  cases hl : regionMap.lookup (jsReplaceWsWithHyphen (jsToLower r)) with
  | some code =>
    have hNr : normalizeRegion r = .str code := by
      unfold normalizeRegion
      dsimp only
      rw [hl]
    have hfix : normalizeRegion code = .str code :=
      normalizeRegion_code_fixed code (regionMap_lookup_mem _ _ hl)
    refine ⟨?_, ?_, ?_, ?_⟩
    · rw [hNr]
      unfold normalizeRegionValue
      dsimp only
      rw [hfix]
    · have : normalizeRegion (jsToLower r) = .str code := by
        unfold normalizeRegion
        dsimp only
        rw [jsToLower_idem_ascii r h, hl]
      rw [hNr, this]
    · intro c hc
      injection hc with hc'
      rw [hNr, hc']
    · intro hn
      cases hn
  | none =>
    have hNr : normalizeRegion r = .str (jsToUpper r) := by
      unfold normalizeRegion
      dsimp only
      rw [hl, if_neg hproto]
    refine ⟨?_, ?_, ?_, fun _ => hNr⟩
    · rw [hNr]
      unfold normalizeRegionValue
      dsimp only
      have : normalizeRegion (jsToUpper r) = .str (jsToUpper r) := by
        unfold normalizeRegion
        dsimp only
        rw [jsToLower_jsToUpper_ascii r h, hl, if_neg hproto,
          jsToUpper_idem_ascii r h]
      rw [this]
    · rw [hNr]
      unfold normalizeRegion
      dsimp only
      rw [jsToLower_idem_ascii r h, hl, if_neg hproto,
        jsToUpper_jsToLower_ascii r h]
    · intro c hc
      cases hc

/-- Witness for the amended C6 at the concrete inputs "Northeast" (a table
hit through case folding) and "New  York" (a genuine miss that passes
through upper-cased). -/
theorem normalizeRegion_ascii_spec_witness :
    normalizeRegionValue (normalizeRegion "Northeast") =
      .ok (normalizeRegion "Northeast") ∧
    normalizeRegion "New  York" = normalizeRegion (jsToLower "New  York") ∧
    normalizeRegion "New  York" = .str (jsToUpper "New  York") :=
  ⟨(normalizeRegion_ascii_spec "Northeast" (by decide) (by decide)).1,
   (normalizeRegion_ascii_spec "New  York" (by decide) (by decide)).2.1,
   (normalizeRegion_ascii_spec "New  York" (by decide) (by decide)).2.2.2
     rfl⟩

/-- Witness for C9 at the concrete region "US-NE-001". -/
theorem getDemographicsByRegion_empty_filter_is_absent_witness :
    getDemographicsByRegion ⟨"US-NE-001", some ""⟩ =
      getDemographicsByRegion ⟨"US-NE-001", none⟩ ∧
    (getDemographicsByRegion ⟨"US-NE-001", some ""⟩).map
      (fun r => r.disease_specific_data) = .ok none :=
  getDemographicsByRegion_empty_filter_is_absent "US-NE-001" (by decide)

end CTSite
